import Mathlib

/-!
Verification development for the werf build-conveyor core.

Shallow embedding of the phase drivers (SignaturesPhase, RenewPhase,
PrepareImagesPhase, BuildPhase), the git-repo checksum and commit-existence
helpers, and the git-stage hooks, translated from the Go sources.
External collaborators (the container daemon, the SHA-256 primitive, the
lock backend) are abstracted as parameters or event traces; control flow,
data flow and all literals are taken verbatim from the sources.
-/

namespace Werf

/-- Embeds `BuildCacheVersion = "33"` from `pkg/build/signatures_phase.go`. -/
def BuildCacheVersion : String := "33"

/-- Modelled from the spec: `util.Sha256Hash` (its source is not under `src/`)
concatenates its arguments and returns the lowercase hex SHA-256 of the
concatenation (`hexSignature = lowercase(hex(sha256(dependencies || "33" ||
prevSignatureOrEmpty)))`).  The SHA-256-and-hex-encode step is abstracted as
the function parameter `H`. -/
def Sha256Hash (H : String → String) (args : List String) : String :=
  H (String.join args)

namespace SignaturesPhase

/-- A stage as observed by `SignaturesPhase.calculateImageSignatures`: its
name together with the outcomes of the two fallible calls the loop makes on
it (`s.IsEmpty` and `s.GetDependencies`). -/
structure Stage where
  name : String
  isEmpty : Except String Bool
  getDependencies : Except String String

/-- Record of one non-empty stage processed by the signatures loop: the
dependencies string used, the signature stored by `s.SetSignature` and the
stage-image name passed to `c.GetOrCreateImage`. -/
structure StageResult where
  name : String
  dependencies : String
  signature : String
  imageName : String
deriving DecidableEq

/-- The `prevStage != nil` conditional append of
`checksumArgs = append(checksumArgs, prevStage.GetSignature())`. -/
def prevSigArgs : Option String → List String
  | some prev => [prev]
  | none => []

/-- Embeds the stage loop of `SignaturesPhase.calculateImageSignatures`
(`pkg/build/signatures_phase.go` lines 53-101): empty stages are skipped,
a non-empty stage gets `stageSig = util.Sha256Hash(stageDependencies,
BuildCacheVersion, prevStage.GetSignature()?)` and an image named
`fmt.Sprintf("image-stage-%s:%s", c.projectName(), stageSig)`; `prevStage`
is the previous non-empty stage.  Docker-state synchronisation and the
after-sync hook are modelled separately (they do not touch signatures). -/
def calculateImageSignatures (H : String → String) (project : String) :
    Option String → List Stage → Except String (List StageResult)
  | _, [] => Except.ok []
  | prevSig, s :: rest =>
    match s.isEmpty with
    | Except.error e => Except.error e
    | Except.ok true => calculateImageSignatures H project prevSig rest
    | Except.ok false =>
      match s.getDependencies with
      | Except.error e => Except.error e
      | Except.ok stageDependencies =>
        let stageSig := Sha256Hash H ([stageDependencies, BuildCacheVersion] ++ prevSigArgs prevSig)
        match calculateImageSignatures H project (some stageSig) rest with
        | Except.error e => Except.error e
        | Except.ok restResults =>
          Except.ok ({ name := s.name, dependencies := stageDependencies,
                       signature := stageSig,
                       imageName := "image-stage-" ++ project ++ ":" ++ stageSig } :: restResults)

/-- The signature/image-name convention claimed by the spec, as a chain
predicate over the processed-stage records: each signature is the hash of
`dependencies || "33" || previous-signature-or-empty` (the chain starts at
`prev = ""`) and each image name is `image-stage-{project}:{signature}`. -/
def sigChainOk (H : String → String) (project : String) : String → List StageResult → Prop
  | _, [] => True
  | prev, r :: rest =>
    r.signature = H (r.dependencies ++ BuildCacheVersion ++ prev) ∧
    r.imageName = "image-stage-" ++ project ++ ":" ++ r.signature ∧
    sigChainOk H project r.signature rest

end SignaturesPhase

namespace PrepareImagesPhase

/-- A stage as observed by `PrepareImagesPhase.runImage`: its signature
(`s.GetSignature()`), whether its stage image already exists
(`stageImage.IsExists()`) and whether `s.PrepareImage` succeeds. -/
structure Stage where
  name : String
  signature : String
  imageExists : Bool
  prepareOk : Bool
deriving DecidableEq

/-- An image as processed by `PrepareImagesPhase`: its name, whether
`image.PrepareBaseImage(c)` succeeds, and its stage list. -/
structure Image where
  name : String
  prepareBaseOk : Bool
  stages : List Stage
deriving DecidableEq

/-- The container mutations accumulated on one stage image before its build:
the labels added through `Container().ServiceCommitChangeOptions().AddLabel`
and the volume/env added through `Container().RunOptions()`. -/
structure StageImageConfig where
  stageName : String
  labels : List (String × String)
  volumes : List String
  envs : List (String × String)
deriving DecidableEq

/-- Conveyor state read by `PrepareImagesPhase`: project name, the tool
version (`werf.Version`), `c.sshAuthSock`, and the signatures registered in
the signature index (`c.GetImageBySignature`/`c.SetImageBySignature`). -/
structure Conveyor where
  projectName : String
  werfVersion : String
  sshAuthSock : String
  sigIndex : List String
deriving DecidableEq

/-- Embeds the label block of `PrepareImagesPhase.runImage`
(`lib/dapp/kube/dapp/dapp.rb` lines 231-238): the five service labels added
on every configured stage image, in source order; `werf-image` is the
literal string `"false"`. -/
def serviceLabels (c : Conveyor) : List (String × String) :=
  [("werf", c.projectName),
   ("werf-version", c.werfVersion),
   ("werf-cache-version", BuildCacheVersion),
   ("werf-image", "false"),
   ("werf-dev-mode", "false")]

/-- Embeds the ssh-agent block of `PrepareImagesPhase.runImage` (lines
240-244): when `c.sshAuthSock` is non-empty a volume
`{sshAuthSock}:/tmp/werf-ssh-agent` and env `SSH_AUTH_SOCK` are added. -/
def sshVolumes (c : Conveyor) : List String :=
  if c.sshAuthSock ≠ "" then [c.sshAuthSock ++ ":/tmp/werf-ssh-agent"] else []

/-- The env mutations of the ssh-agent block of `PrepareImagesPhase.runImage`. -/
def sshEnvs (c : Conveyor) : List (String × String) :=
  if c.sshAuthSock ≠ "" then [("SSH_AUTH_SOCK", "/tmp/werf-ssh-agent")] else []

/-- Embeds the stage loop of `PrepareImagesPhase.runImage` (lines 215-254):
a stage whose signature is already in the index or whose image exists is
skipped; otherwise the stage image receives the service labels and the
optional ssh volume/env, `s.PrepareImage` runs (an error aborts), and the
signature is registered in the index.  Returns the updated index and the
configurations applied, in order. -/
def runImageStages (c : Conveyor) :
    List Stage → Except String (Conveyor × List StageImageConfig)
  | [] => Except.ok (c, [])
  | s :: rest =>
    if c.sigIndex.contains s.signature || s.imageExists then
      runImageStages c rest
    else
      if s.prepareOk then
        match runImageStages { c with sigIndex := c.sigIndex ++ [s.signature] } rest with
        | Except.error e => Except.error e
        | Except.ok (cOut, cfgs) =>
          Except.ok (cOut,
            { stageName := s.name, labels := serviceLabels c,
              volumes := sshVolumes c, envs := sshEnvs c } :: cfgs)
      else
        Except.error ("error preparing stage " ++ s.name)

/-- Embeds `PrepareImagesPhase.runImage` (lines 202-257): base-image
preparation first (an error aborts), then the stage loop. -/
def runImage (c : Conveyor) (image : Image) :
    Except String (Conveyor × List StageImageConfig) :=
  if image.prepareBaseOk then
    runImageStages c image.stages
  else
    Except.error ("error preparing base image of image " ++ image.name)

/-- Embeds `PrepareImagesPhase.run` (lines 184-200) as written: the loop
body ends with an unconditional `return nil` (left over from a commented-out
`logger.LogProcess` closure), so after the first image is prepared the
function returns; the remaining images are never visited.  Returns the
updated conveyor state and the names of the images actually processed. -/
def run (c : Conveyor) :
    List Image → Except String (Conveyor × List String)
  | [] => Except.ok (c, [])
  | image :: _rest =>
    match runImage c image with
    | Except.error e => Except.error e
    | Except.ok (cOut, _cfgs) => Except.ok (cOut, [image.name])

end PrepareImagesPhase

/-- Modelled from the spec: lock manager options (§4.1) — `opts` carries a
timeout (default unbounded, here `none`) and a shared-vs-exclusive flag
(exclusive default).  The lock package itself is not under `src/`; the Go
zero value `lock.LockOptions{}` leaves both fields unset. -/
structure LockOptions where
  timeout : Option Nat
  shared : Bool
deriving DecidableEq

/-- The Go zero value `lock.LockOptions{}` used by the per-stage image lock
acquisitions in `RenewPhase.run` and `BuildPhase.runImage`: no timeout. -/
def emptyLockOptions : LockOptions :=
  { timeout := none, shared := false }

/-- Embeds `lock.LockOptions{Timeout: 600 * time.Second}` passed by
`Base.withWorkTreeLock` (`pkg/git_repo/base.go` lines 126-129); the timeout
is in seconds. -/
def workTreeLockOptions : LockOptions :=
  { timeout := some 600, shared := false }

/-- Embeds `lock.LockOptions{Timeout: 600 * time.Second}` passed by
`Remote.withRemoteRepoLock` (`pkg/git_repo/remote.go` lines 290-293). -/
def remoteRepoLockOptions : LockOptions :=
  { timeout := some 600, shared := false }

/-- Embeds `fmt.Sprintf("%s.image.%s", c.projectName(), img.Name())`, the
per-stage image lock name used by `RenewPhase` and `BuildPhase`. -/
def imageLockName (project imageName : String) : String :=
  project ++ ".image." ++ imageName

/-- Embeds `fmt.Sprintf("git_work_tree %s", workTree)` from
`Base.withWorkTreeLock`. -/
def workTreeLockName (workTree : String) : String :=
  "git_work_tree " ++ workTree

/-- Embeds `fmt.Sprintf("remote_git_path.%s", repo.Name)` from
`Remote.withRemoteRepoLock`. -/
def remoteRepoLockName (name : String) : String :=
  "remote_git_path." ++ name

/-- Lock-manager events observed during `RenewPhase`: acquisitions (with the
options passed) and releases. -/
inductive LockEv
  | lock (name : String) (opts : LockOptions)
  | unlock (name : String)
deriving DecidableEq

/-- Whether a renew-phase lock acquisition was made with the default
(zero-value, timeout-less) options; release events count as trivially
fine. -/
def lockEvOptsDefault : LockEv → Bool
  | LockEv.lock _ o => o == emptyLockOptions
  | LockEv.unlock _ => true

/-- Embeds the message of `ConveyorShouldBeResetError()`
(`errors.New("conveyor should be reset")`, `src/unnamed/part_003`). -/
def ConveyorShouldBeResetMsg : String := "conveyor should be reset"

/-- Embeds `isConveyorShouldBeResetError`: the source compares error
messages. -/
def isConveyorShouldBeResetError (e : String) : Bool :=
  e == ConveyorShouldBeResetMsg

namespace RenewPhase

/-- A stage as observed by `RenewPhase.run`: the name of the attached image, its
existence flag entering the phase and after the lock-pass
`SyncDockerState`, and the outcomes of the fallible calls made on it. -/
structure Stage where
  name : String
  imageName : String
  existsBefore : Bool
  existsAfterSync : Bool
  lockOk : Bool
  syncOk : Bool
  shouldBeReset : Except String Bool
  untagOk : Bool

/-- An image as processed by `RenewPhase.run`. -/
structure Image where
  name : String
  stages : List Stage

/-- Whether the image of a stage exists at the reset check of the build pass:
stages existing before the phase were refreshed by `SyncDockerState` in the
lock pass; stages not existing before were skipped there and keep their
(false) state. -/
def existsAtRenewCheck (s : Stage) : Bool :=
  s.existsBefore && s.existsAfterSync

/-- Whether the `ShouldBeReset` call of a stage succeeded with `true`. -/
def resetTrue (s : Stage) : Bool :=
  match s.shouldBeReset with
  | Except.ok true => true
  | _ => false

/-- Whether all fallible calls on a stage succeed. -/
def hooksOk (s : Stage) : Bool :=
  s.lockOk && s.syncOk && s.shouldBeReset.isOk && s.untagOk

/-- Embeds the lock pass of `RenewPhase.run` (`src/unnamed/part_003` lines
50-65): every stage whose image exists is locked (options
`lock.LockOptions{}`) and synced.  The source never appends the acquired
name to `acquiredLocks` (compare `BuildPhase.runImage`, which does), so the
returned acquired-locks list — faithfully carried here as the second
component — stays empty.  Returns the lock-event trace, the `acquiredLocks`
slice, and the pass outcome. -/
def lockPass (project : String) :
    List Stage → List LockEv × List String × Except String Unit
  | [] => ([], [], Except.ok ())
  | s :: rest =>
    if s.existsBefore = false then
      lockPass project rest
    else
      if s.lockOk = false then
        ([], [], Except.error ("failed to lock " ++ imageLockName project s.imageName))
      else
        if s.syncOk = false then
          ([LockEv.lock (imageLockName project s.imageName) emptyLockOptions], [],
            Except.error ("error synchronizing docker state"))
        else
          match lockPass project rest with
          | (tr, acquiredLocks, res) =>
            (LockEv.lock (imageLockName project s.imageName) emptyLockOptions :: tr,
              acquiredLocks, res)

/-- Embeds the build pass of `RenewPhase.run` (lines 68-83): for each stage
whose image exists, `ShouldBeReset` is consulted; a `true` report sets the
global flag and untags the stage image.  Returns the untagged image names
(in order) and either an error or the flag contribution. -/
def buildPass : List Stage → List String × Except String Bool
  | [] => ([], Except.ok false)
  | s :: rest =>
    if existsAtRenewCheck s then
      match s.shouldBeReset with
      | Except.error e => ([], Except.error e)
      | Except.ok true =>
        if s.untagOk then
          match buildPass rest with
          | (us, Except.error e) => (s.imageName :: us, Except.error e)
          | (us, Except.ok _) => (s.imageName :: us, Except.ok true)
        else
          ([], Except.error ("untag failed"))
      | Except.ok false => buildPass rest
    else
      buildPass rest

/-- Embeds `unlockLocks` of `RenewPhase.run` (lines 39-45): drains the
`acquiredLocks` slice, unlocking each entry. -/
def unlockLocks (acquiredLocks : List String) : List LockEv :=
  acquiredLocks.map LockEv.unlock

/-- One image iteration of `RenewPhase.run` (lines 32-86): lock pass, build
pass, then `unlockLocks()` (which releases nothing, since the lock pass
left `acquiredLocks` empty). -/
def runImage (project : String) (img : Image) :
    List LockEv × List String × Except String Bool :=
  match lockPass project img.stages with
  | (tr, acquiredLocks, Except.error e) =>
    (tr ++ unlockLocks acquiredLocks, [], Except.error e)
  | (tr, acquiredLocks, Except.ok _) =>
    match buildPass img.stages with
    | (us, Except.error e) => (tr ++ unlockLocks acquiredLocks, us, Except.error e)
    | (us, Except.ok flag) => (tr ++ unlockLocks acquiredLocks, us, Except.ok flag)

/-- The image loop of `RenewPhase.run`, accumulating the trace, the
untagged names, and the sticky `conveyorShouldBeReset` flag. -/
def runImages (project : String) : List Image → List LockEv × List String × Except String Bool
  | [] => ([], [], Except.ok false)
  | img :: rest =>
    match runImage project img with
    | (tr, us, Except.error e) => (tr, us, Except.error e)
    | (tr, us, Except.ok flag) =>
      match runImages project rest with
      | (tr2, us2, Except.error e) => (tr ++ tr2, us ++ us2, Except.error e)
      | (tr2, us2, Except.ok flag2) => (tr ++ tr2, us ++ us2, Except.ok (flag || flag2))

/-- Result of a `RenewPhase.run`: the lock-event trace, the untagged image
names, and the outcome. -/
structure PhaseResult where
  trace : List LockEv
  untagged : List String
  outcome : Except String Unit

/-- Embeds `RenewPhase.run` (lines 26-93): after the image loop, the
sentinel `ConveyorShouldBeResetError()` is returned when the flag is set. -/
def run (project : String) (images : List Image) : PhaseResult :=
  match runImages project images with
  | (tr, us, Except.error e) => { trace := tr, untagged := us, outcome := Except.error e }
  | (tr, us, Except.ok flag) =>
    { trace := tr, untagged := us,
      outcome := if flag then Except.error ConveyorShouldBeResetMsg else Except.ok () }

end RenewPhase

namespace BuildPhase

/-- A stage as observed by `BuildPhase.runImage`
(`lib/dapp/kube/dapp/dapp.rb` lines 67-154): existence at the lock pass,
existence after the lock-pass `SyncDockerState` (only non-existing stages
are synced there), and the outcomes of the fallible calls. -/
structure Stage where
  name : String
  imageName : String
  existsAtStart : Bool
  existsAfterSync : Bool
  lockOk : Bool
  syncOk : Bool
  preRunOk : Bool
  buildOk : Bool
  saveOk : Bool
deriving DecidableEq

/-- Build-phase events: lock traffic plus the per-stage operations the
build pass performs (`[USING CACHE]` log, `PreRunHook`, `Build`,
`SaveInCache`). -/
inductive Ev
  | lock (name : String) (opts : LockOptions)
  | unlock (name : String)
  | usingCache (stage : String)
  | preRun (stage : String)
  | build (stage : String)
  | save (stage : String)
deriving DecidableEq

/-- Whether the image of a stage exists at the build pass: stages existing at the
lock pass were skipped there (state unchanged); the others were synced. -/
def existsAtBuildCheck (s : Stage) : Bool :=
  s.existsAtStart || s.existsAfterSync

/-- Whether a build-phase lock acquisition was made with the default
(zero-value, timeout-less) options; every non-acquisition event counts as
trivially fine. -/
def buildEvOptsDefault : Ev → Bool
  | Ev.lock _ o => o == emptyLockOptions
  | _ => true

/-- Whether an event is a `PreRunHook`, `Build` or `SaveInCache` invocation
for the stage named `nm`. -/
def evForStageName (nm : String) : Ev → Bool
  | Ev.preRun n => n == nm
  | Ev.build n => n == nm
  | Ev.save n => n == nm
  | _ => false

/-- Embeds the lock pass of `BuildPhase.runImage` (lines 89-106): every
stage whose image does not exist is locked with `lock.LockOptions{}`, the
name is appended to `acquiredLocks`, and the image is synced. -/
def lockPass (project : String) :
    List Stage → List Ev × List String × Except String Unit
  | [] => ([], [], Except.ok ())
  | s :: rest =>
    if s.existsAtStart then
      lockPass project rest
    else
      if s.lockOk = false then
        ([], [], Except.error ("failed to lock " ++ imageLockName project s.imageName))
      else
        if s.syncOk = false then
          ([Ev.lock (imageLockName project s.imageName) emptyLockOptions],
            [imageLockName project s.imageName],
            Except.error ("error synchronizing docker state"))
        else
          match lockPass project rest with
          | (tr, acquiredLocks, res) =>
            (Ev.lock (imageLockName project s.imageName) emptyLockOptions :: tr,
              imageLockName project s.imageName :: acquiredLocks, res)

/-- Embeds the `logger.LogProcess(msg, "[BUILDING]", ...)` closure of the
build pass (lines 124-148): `PreRunHook`, then `Build`, then `SaveInCache`,
stopping at the first failure.  Returns the operations invoked and the
value left in the named return `err` of `runImage` (the raw error of the last
failing call, or `nil`); the wrapped return value of the closure itself is
discarded by the source. -/
def stageClosure (s : Stage) : List Ev × Option String :=
  if s.preRunOk = false then
    ([Ev.preRun s.name], some ("stage " ++ s.name ++ " preRunHook failed"))
  else if s.buildOk = false then
    ([Ev.preRun s.name, Ev.build s.name], some ("failed to build " ++ s.imageName))
  else if s.saveOk = false then
    ([Ev.preRun s.name, Ev.build s.name, Ev.save s.name],
      some ("failed to save in cache image " ++ s.imageName))
  else
    ([Ev.preRun s.name, Ev.build s.name, Ev.save s.name], none)

/-- Embeds `unlockLock` (lines 74-78): pops the front of `acquiredLocks`
and unlocks it.  An empty slice would panic in the source; it is
unreachable once the lock pass completed. -/
def popLock : List String → List Ev × List String
  | [] => ([], [])
  | n :: rest => ([Ev.unlock n], rest)

/-- Embeds the build pass of `BuildPhase.runImage` (lines 109-151): a
stage whose image exists logs `[USING CACHE]` and continues (without
touching the lock queue); otherwise the build closure runs and
`unlockLock()` releases the front of the queue; the loop continues even
after a failed build (the source discards the return value of `LogProcess`). -/
def buildPass : List String → Option String → List Stage → List Ev × List String × Option String
  | acquiredLocks, errVar, [] => ([], acquiredLocks, errVar)
  | acquiredLocks, errVar, s :: rest =>
    if existsAtBuildCheck s then
      match buildPass acquiredLocks errVar rest with
      | (tr, acqOut, e) => (Ev.usingCache s.name :: tr, acqOut, e)
    else
      match stageClosure s with
      | (str, errVar2) =>
        match popLock acquiredLocks with
        | (utr, acq2) =>
          match buildPass acq2 errVar2 rest with
          | (tr, acqOut, e) => (str ++ utr ++ tr, acqOut, e)

/-- Embeds `BuildPhase.runImage` (lines 67-154): lock pass, build pass,
then the deferred `unlockLocks()` releasing every still-held lock on any
exit path; the result of the function is the last value of the named return
`err`. -/
def runImage (project : String) (stages : List Stage) : List Ev × Except String Unit :=
  match lockPass project stages with
  | (tr, acquiredLocks, Except.error e) =>
    (tr ++ acquiredLocks.map Ev.unlock, Except.error e)
  | (tr, acquiredLocks, Except.ok _) =>
    match buildPass acquiredLocks none stages with
    | (tr2, acqRemaining, errVar) =>
      (tr ++ tr2 ++ acqRemaining.map Ev.unlock,
        match errVar with
        | some e => Except.error e
        | none => Except.ok ())

end BuildPhase

namespace GitRepo

/-- What `os.Lstat`/`os.Readlink`/content reading observe for one matched
work-tree path: the content of a regular file or the target of a symlink
(`Base.checksum` hashes nothing else besides path and mode). -/
inductive FileBody
  | regular (content : String)
  | symlink (target : String)
deriving DecidableEq

/-- Embeds `fmt.Sprintf("%o", stat.Mode())`: the file mode printed in
octal. -/
def octalStr (n : Nat) : String :=
  String.mk (Nat.toDigits 8 n)

/-- The bytes `Base.checksum` (`pkg/git_repo/base.go` lines 445-522) writes
into the SHA-256 for one matched path: the path string, then the octal
mode, then the content (regular file) or link target (symlink). -/
def fileRecord (path : String) (mode : Nat) (body : FileBody) : String :=
  path ++ octalStr mode ++
    (match body with
     | FileBody.regular content => content
     | FileBody.symlink target => target)

/-- Lexicographic byte order on character lists, as compared by the Go
`sort.Strings` (UTF-8 byte order coincides with code-point order). -/
def charListLe : List Char → List Char → Bool
  | [], _ => true
  | _ :: _, [] => false
  | a :: as, b :: bs => if a < b then true else if b < a then false else charListLe as bs

/-- String comparison used by `sort.Strings`. -/
def strLe (a b : String) : Bool :=
  charListLe a.data b.data

/-- Embeds `sort.Strings(paths)` (an ascending lexicographic sort; the
concrete algorithm is irrelevant, only the sorted result matters). -/
def sortStrings (l : List String) : List String :=
  List.insertionSort (fun a b => strLe a b = true) l

/-- The hashing loop of `Base.checksum` over the sorted, filtered path
list: `wt` models the work tree (`os.Lstat` plus content read), a missing
path is the `error accessing file` case.  Returns the byte stream fed to
the SHA-256. -/
def hashFiles (wt : String → Option (Nat × FileBody)) :
    List String → Except String (List Char)
  | [] => Except.ok []
  | p :: rest =>
    match wt p with
    | none => Except.error ("error accessing file " ++ p)
    | some (m, b) =>
      match hashFiles wt rest with
      | Except.error e => Except.error e
      | Except.ok restStream => Except.ok ((fileRecord p m b).data ++ restStream)

/-- Embeds `Base.checksum` (lines 419-455): each input path pattern is
expanded by `getFilesByPattern` (abstracted as `matchFn`; patterns with no
matches only affect `NoMatchPaths`, not the hash), the matched paths are
concatenated in pattern order, `sort.Strings` sorts them, the
`pathFilter.IsFilePathValid` check (abstracted as `keep`) drops excluded
paths, and the remainder is hashed in order.  The SHA-256 itself is
abstracted away: the result is the exact byte stream written into it. -/
def checksum (wt : String → Option (Nat × FileBody)) (keep : String → Bool)
    (matchFn : String → List String) (patterns : List String) : Except String (List Char) :=
  hashFiles wt ((sortStrings (patterns.flatMap matchFn)).filter keep)

/-- Models go-git commit-hash parsing (`newHash`, not under `src/`).
Modelled from the spec and the call sites: a commit hash parses when it is
a 40-character hex string; `isCommitExists` fails with `bad commit hash`
otherwise. -/
def hashParses (commit : String) : Bool :=
  commit.length == 40 && commit.data.all (fun c => c.isDigit || (("abcdef".data).contains c))

/-- A repository as observed by `Base.isCommitExists`: whether
`git.PlainOpen` succeeds, the commits present in the object store, and the
commits for which `CommitObject` fails with an error other than
`plumbing.ErrObjectNotFound`. -/
structure Repo where
  openOk : Bool
  commits : List String
  lookupErrors : List (String × String)

/-- Embeds `Base.isCommitExists` (`pkg/git_repo/base.go` lines 312-330):
`PlainOpen` failure and hash-parse failure return errors; a lookup whose
error is `plumbing.ErrObjectNotFound` returns `(false, nil)`; any other
lookup error returns `(false, err)`; success returns `(true, nil)`. -/
def isCommitExists (repo : Repo) (commit : String) : Except String Bool :=
  if repo.openOk = false then
    Except.error ("cannot open repo")
  else if hashParses commit = false then
    Except.error ("bad commit hash " ++ commit)
  else
    match repo.lookupErrors.lookup commit with
    | some e => Except.error ("bad commit " ++ commit ++ ": " ++ e)
    | none => Except.ok (repo.commits.contains commit)

end GitRepo

namespace GitStage

/-- One git path of a `GitStage` as observed by `ShouldBeReset`
(`src/unnamed/part_004` lines 140-151): the repository handle and the
commit read back from the labels of the built image. -/
structure GitPathObs where
  repo : GitRepo.Repo
  commit : String

/-- Embeds `GitStage.ShouldBeReset`: the git paths are scanned in order;
an `IsCommitExists` error propagates as `(false, err)`; a missing commit
returns `(true, nil)`; otherwise `(false, nil)`. -/
def ShouldBeReset : List GitPathObs → Except String Bool
  | [] => Except.ok false
  | gp :: rest =>
    match GitRepo.isCommitExists gp.repo gp.commit with
    | Except.error e => Except.error e
    | Except.ok false => Except.ok true
    | Except.ok true => ShouldBeReset rest

/-- A git stage as observed by `AfterImageSyncDockerStateHook`
(`src/unnamed/part_004` lines 153-164): its name and whether its stage
image exists after `SyncDockerState`. -/
structure HookObs where
  name : String
  imageExists : Bool
deriving DecidableEq

/-- Embeds `GitStage.AfterImageSyncDockerStateHook`: when the stage image
does not exist and the per-image `buildingGitStage` slot
(`c.GetBuildingGitStage`, `""` when unset) is still empty, the stage
claims it via `c.SetBuildingGitStage`.  Returns the new slot value and
whether this stage set it. -/
def afterImageSyncDockerStateHook (slot : String) (g : HookObs) : String × Bool :=
  if g.imageExists = false then
    if slot = "" then (g.name, true) else (slot, false)
  else
    (slot, false)

/-- The hook invocations `SignaturesPhase` makes across the git
stages, in canonical stage order: threads the `buildingGitStage` slot and
records which stages set it. -/
def runHooks (slot : String) : List HookObs → String × List String
  | [] => (slot, [])
  | g :: rest =>
    match afterImageSyncDockerStateHook slot g with
    | (slot2, didSet) =>
      match runHooks slot2 rest with
      | (slotOut, setters) => (slotOut, (if didSet then [g.name] else []) ++ setters)

end GitStage

end Werf

namespace Werf

theorem prepare_runImageStages_labels :
    ∀ (stages : List PrepareImagesPhase.Stage) (c cOut : PrepareImagesPhase.Conveyor)
      (cfgs : List PrepareImagesPhase.StageImageConfig),
      PrepareImagesPhase.runImageStages c stages = Except.ok (cOut, cfgs) →
      ∀ cfg ∈ cfgs,
        cfg.labels = PrepareImagesPhase.serviceLabels c ∧
        cfg.volumes = PrepareImagesPhase.sshVolumes c ∧
        cfg.envs = PrepareImagesPhase.sshEnvs c := by
  intro stages
  induction stages with
  | nil =>
    intro c cOut cfgs h cfg hm
    simp only [PrepareImagesPhase.runImageStages] at h
    cases h
    cases hm
  | cons s rest ih =>
    intro c cOut cfgs h cfg hm
    simp only [PrepareImagesPhase.runImageStages] at h
    split at h
    · exact ih c cOut cfgs h cfg hm
    · split at h
      · split at h
        · cases h
        · cases h
          rename_i hRest
          rcases List.mem_cons.mp hm with hEq | hTail
          · subst hEq
            exact ⟨rfl, rfl, rfl⟩
          · exact ih _ cOut _ hRest cfg hTail
      · cases h

theorem String.join_two (a b : String) : String.join [a, b] = a ++ b := by
  simp [String.join]

theorem String.join_three (a b c : String) : String.join [a, b, c] = a ++ (b ++ c) := by
  simp [String.join, String.append_assoc]

namespace SignaturesPhase

theorem calculateImageSignatures_chainOk (H : String → String) (project : String) :
    ∀ (stages : List Stage) (prevSig : Option String) (results : List StageResult),
      calculateImageSignatures H project prevSig stages = Except.ok results →
      sigChainOk H project (prevSig.getD ("")) results := by
  intro stages
  induction stages with
  | nil =>
    intro prevSig results h
    simp only [calculateImageSignatures] at h
    cases h
    simp [sigChainOk]
  | cons s rest ih =>
    intro prevSig results h
    simp only [calculateImageSignatures] at h
    split at h
    · cases h
    · exact ih prevSig results h
    · split at h
      · cases h
      · split at h
        · cases h
        · cases h
          rename_i hRest
          refine ⟨?_, rfl, ih _ _ hRest⟩
          cases prevSig with
          | none =>
            simp [Sha256Hash, prevSigArgs, String.join_two, Option.getD]
          | some prev =>
            simp [Sha256Hash, prevSigArgs, String.join_three, Option.getD, String.append_assoc]

end SignaturesPhase

/-- C1: for every non-empty stage processed by SignaturesPhase, the
signature set on the stage is the (modelled) lowercase hex SHA-256 of the
concatenation `dependencies || "33" || previous-stage-signature-or-empty`
(with `BuildCacheVersion = "33"`), and the stage image it is attached to is
named exactly `image-stage-{project}:{signature}`.  `H` abstracts the
hex-SHA-256 primitive; the chain starts from the empty previous
signature. -/
theorem C1_signatures_convention (H : String → String) (project : String)
    (stages : List SignaturesPhase.Stage) (results : List SignaturesPhase.StageResult)
    (h : SignaturesPhase.calculateImageSignatures H project none stages = Except.ok results) :
    SignaturesPhase.sigChainOk H project ("") results :=
  SignaturesPhase.calculateImageSignatures_chainOk H project stages none results h

/-- Witness for C1 at a concrete two-stage image. -/
theorem C1_signatures_convention_witness :
    SignaturesPhase.calculateImageSignatures (fun s => "#" ++ s) "demo" none
        [{ name := "install", isEmpty := Except.ok false, getDependencies := Except.ok ("d1") },
         { name := "setup", isEmpty := Except.ok false, getDependencies := Except.ok ("d2") }]
      = Except.ok
        [{ name := "install", dependencies := "d1", signature := "#d133",
           imageName := "image-stage-demo:#d133" },
         { name := "setup", dependencies := "d2", signature := "#d233#d133",
           imageName := "image-stage-demo:#d233#d133" }] ∧
    SignaturesPhase.sigChainOk (fun s => "#" ++ s) "demo" ""
        [{ name := "install", dependencies := "d1", signature := "#d133",
           imageName := "image-stage-demo:#d133" },
         { name := "setup", dependencies := "d2", signature := "#d233#d133",
           imageName := "image-stage-demo:#d233#d133" }] :=
  ⟨rfl, C1_signatures_convention (fun s => "#" ++ s) "demo"
    [{ name := "install", isEmpty := Except.ok false, getDependencies := Except.ok ("d1") },
     { name := "setup", isEmpty := Except.ok false, getDependencies := Except.ok ("d2") }]
    [{ name := "install", dependencies := "d1", signature := "#d133",
       imageName := "image-stage-demo:#d133" },
     { name := "setup", dependencies := "d2", signature := "#d233#d133",
       imageName := "image-stage-demo:#d233#d133" }] rfl⟩

theorem renew_buildPass_ok :
    ∀ (stages : List RenewPhase.Stage),
      (∀ s ∈ stages, RenewPhase.hooksOk s = true) →
      RenewPhase.buildPass stages
        = ((stages.filter
              (fun s => RenewPhase.existsAtRenewCheck s && RenewPhase.resetTrue s)).map
              (fun s => s.imageName),
           Except.ok (stages.any
              (fun s => RenewPhase.existsAtRenewCheck s && RenewPhase.resetTrue s))) := by
  intro stages h
  induction stages with
  | nil => rfl
  | cons s rest ih =>
    have hs : RenewPhase.hooksOk s = true := h s (List.mem_cons_self s rest)
    have hrest := ih (fun t ht => h t (List.mem_cons_of_mem s ht))
    have hUntag : s.untagOk = true := by
      simp [RenewPhase.hooksOk] at hs
      exact hs.2
    simp only [RenewPhase.buildPass]
    by_cases hEx : RenewPhase.existsAtRenewCheck s = true
    · cases hSR : s.shouldBeReset with
      | error e =>
        exfalso
        simp [RenewPhase.hooksOk, hSR, Except.isOk, Except.toBool] at hs
      | ok b =>
        cases b with
        | true =>
          simp only [hEx, if_true, hSR, hUntag, hrest, if_true]
          simp [List.filter_cons, List.any_cons, hEx, RenewPhase.resetTrue, hSR]
        | false =>
          simp only [hEx, if_true, hSR, hrest]
          simp [List.filter_cons, List.any_cons, hEx, RenewPhase.resetTrue, hSR]
    · simp only [Bool.not_eq_true] at hEx
      simp only [hEx, Bool.false_eq_true, if_false, hrest]
      simp [List.filter_cons, List.any_cons, hEx]

theorem renew_lockPass_ok :
    ∀ (project : String) (stages : List RenewPhase.Stage),
      (∀ s ∈ stages, RenewPhase.hooksOk s = true) →
      RenewPhase.lockPass project stages
        = ((stages.filter (fun s => s.existsBefore)).map
             (fun s => LockEv.lock (imageLockName project s.imageName) emptyLockOptions),
           [], Except.ok ()) := by
  intro project stages h
  induction stages with
  | nil => rfl
  | cons s rest ih =>
    have hs : RenewPhase.hooksOk s = true := h s (List.mem_cons_self s rest)
    have hrest := ih (fun t ht => h t (List.mem_cons_of_mem s ht))
    have hLock : s.lockOk = true := by
      simp [RenewPhase.hooksOk] at hs
      exact hs.1.1.1
    have hSync : s.syncOk = true := by
      simp [RenewPhase.hooksOk] at hs
      exact hs.1.1.2
    simp only [RenewPhase.lockPass]
    by_cases hEx : s.existsBefore = true
    · simp [hEx, hLock, hSync, hrest, List.filter_cons]
    · simp only [Bool.not_eq_true] at hEx
      simp [hEx, hrest, List.filter_cons]

theorem renew_runImage_ok :
    ∀ (project : String) (img : RenewPhase.Image),
      (∀ s ∈ img.stages, RenewPhase.hooksOk s = true) →
      RenewPhase.runImage project img
        = ((img.stages.filter (fun s => s.existsBefore)).map
             (fun s => LockEv.lock (imageLockName project s.imageName) emptyLockOptions),
           (img.stages.filter
              (fun s => RenewPhase.existsAtRenewCheck s && RenewPhase.resetTrue s)).map
              (fun s => s.imageName),
           Except.ok (img.stages.any
              (fun s => RenewPhase.existsAtRenewCheck s && RenewPhase.resetTrue s))) := by
  intro project img h
  simp only [RenewPhase.runImage, renew_lockPass_ok project img.stages h,
    renew_buildPass_ok img.stages h, RenewPhase.unlockLocks, List.map_nil, List.append_nil]

theorem renew_runImages_ok :
    ∀ (project : String) (images : List RenewPhase.Image),
      (∀ img ∈ images, ∀ s ∈ img.stages, RenewPhase.hooksOk s = true) →
      RenewPhase.runImages project images
        = (images.flatMap (fun img => (img.stages.filter (fun s => s.existsBefore)).map
             (fun s => LockEv.lock (imageLockName project s.imageName) emptyLockOptions)),
           images.flatMap (fun img => (img.stages.filter
              (fun s => RenewPhase.existsAtRenewCheck s && RenewPhase.resetTrue s)).map
              (fun s => s.imageName)),
           Except.ok (images.any (fun img => img.stages.any
              (fun s => RenewPhase.existsAtRenewCheck s && RenewPhase.resetTrue s)))) := by
  intro project images h
  induction images with
  | nil => rfl
  | cons img rest ih =>
    have himg := h img (List.mem_cons_self img rest)
    have hrest := ih (fun i hi => h i (List.mem_cons_of_mem img hi))
    simp only [RenewPhase.runImages, renew_runImage_ok project img himg, hrest]
    simp [List.flatMap_cons, List.any_cons]

/-- C3 (code bug): the per-stage image lock taken in the `RenewPhase` lock
pass has no matching release: the source never appends the acquired name to
`acquiredLocks`, so `unlockLocks` releases nothing.  On a one-stage image
whose stage image exists, the trace of a successful run holds exactly one lock
acquisition and zero releases. -/
theorem C3_renew_lock_without_release :
    (RenewPhase.run ("proj")
        [{ name := "app",
           stages := [{ name := "install", imageName := "image-stage-proj:s1",
                        existsBefore := true, existsAfterSync := true,
                        lockOk := true, syncOk := true,
                        shouldBeReset := Except.ok false, untagOk := true }] }]).trace
      = [LockEv.lock ("proj.image.image-stage-proj:s1") emptyLockOptions] ∧
    ((RenewPhase.run ("proj")
        [{ name := "app",
           stages := [{ name := "install", imageName := "image-stage-proj:s1",
                        existsBefore := true, existsAfterSync := true,
                        lockOk := true, syncOk := true,
                        shouldBeReset := Except.ok false, untagOk := true }] }]).trace.countP
        (fun ev => match ev with
          | LockEv.unlock _ => true
          | _ => false)) = 0 ∧
    (RenewPhase.run ("proj")
        [{ name := "app",
           stages := [{ name := "install", imageName := "image-stage-proj:s1",
                        existsBefore := true, existsAfterSync := true,
                        lockOk := true, syncOk := true,
                        shouldBeReset := Except.ok false, untagOk := true }] }]).outcome
      = Except.ok () :=
  ⟨rfl, rfl, rfl⟩

/-- C4: on a run whose per-stage calls all succeed, `RenewPhase.run`
returns the `ConveyorShouldBeReset` sentinel if and only if at least one
stage whose image exists reports `ShouldBeReset` true; the untagged images
are exactly those of the reset-reporting stages (in order), and the
outcome is either plain success or the sentinel — so with no reset report
the phase returns nil. -/
theorem C4_renew_reset_sentinel (project : String) (images : List RenewPhase.Image)
    (h : ∀ img ∈ images, ∀ s ∈ img.stages, RenewPhase.hooksOk s = true) :
    ((RenewPhase.run project images).outcome = Except.error ConveyorShouldBeResetMsg ↔
      (∃ img ∈ images, ∃ s ∈ img.stages,
        (RenewPhase.existsAtRenewCheck s && RenewPhase.resetTrue s) = true)) ∧
    (RenewPhase.run project images).untagged
      = images.flatMap (fun img => (img.stages.filter
          (fun s => RenewPhase.existsAtRenewCheck s && RenewPhase.resetTrue s)).map
          (fun s => s.imageName)) ∧
    ((RenewPhase.run project images).outcome = Except.ok () ∨
      (RenewPhase.run project images).outcome = Except.error ConveyorShouldBeResetMsg) := by
  have hrun := renew_runImages_ok project images h
  have hOutcome : (RenewPhase.run project images).outcome
      = (if (images.any (fun img => img.stages.any
            (fun s => RenewPhase.existsAtRenewCheck s && RenewPhase.resetTrue s)))
         then Except.error ConveyorShouldBeResetMsg else Except.ok ()) := by
    unfold RenewPhase.run
    rw [hrun]
  have hUntagged : (RenewPhase.run project images).untagged
      = images.flatMap (fun img => (img.stages.filter
          (fun s => RenewPhase.existsAtRenewCheck s && RenewPhase.resetTrue s)).map
          (fun s => s.imageName)) := by
    unfold RenewPhase.run
    rw [hrun]
  refine ⟨?_, hUntagged, ?_⟩
  · rw [hOutcome]
    by_cases hFlag : (images.any (fun img => img.stages.any
        (fun s => RenewPhase.existsAtRenewCheck s && RenewPhase.resetTrue s))) = true
    · rw [hFlag]
      simp only [if_true]
      constructor
      · intro _
        rcases List.any_eq_true.mp hFlag with ⟨img, hImg, hAny⟩
        rcases List.any_eq_true.mp hAny with ⟨s, hS, hPred⟩
        exact ⟨img, hImg, s, hS, hPred⟩
      · intro _
        trivial
    · simp only [Bool.not_eq_true] at hFlag
      rw [hFlag]
      simp only [Bool.false_eq_true, if_false]
      constructor
      · intro hContra
        cases hContra
      · intro hEx
        exfalso
        rcases hEx with ⟨img, hImg, s, hS, hPred⟩
        have hF2 : (images.any (fun img => img.stages.any
            (fun s => RenewPhase.existsAtRenewCheck s && RenewPhase.resetTrue s))) = true :=
          List.any_eq_true.mpr ⟨img, hImg, List.any_eq_true.mpr ⟨s, hS, hPred⟩⟩
        rw [hF2] at hFlag
        cases hFlag
  · rw [hOutcome]
    by_cases hFlag : (images.any (fun img => img.stages.any
        (fun s => RenewPhase.existsAtRenewCheck s && RenewPhase.resetTrue s))) = true
    · right
      simp [hFlag]
    · left
      simp only [Bool.not_eq_true] at hFlag
      simp [hFlag]

/-- Witness for C4: a stage whose recorded commit vanished reports reset;
the run untags it and returns the sentinel. -/
theorem C4_renew_reset_sentinel_witness :
    (∀ img ∈ [({ name := "app",
                 stages := [{ name := "gitCache", imageName := "image-stage-p:g1",
                              existsBefore := true, existsAfterSync := true,
                              lockOk := true, syncOk := true,
                              shouldBeReset := Except.ok true, untagOk := true }] } :
                   RenewPhase.Image)],
       ∀ s ∈ img.stages, RenewPhase.hooksOk s = true) ∧
    (((RenewPhase.run ("p")
        [{ name := "app",
           stages := [{ name := "gitCache", imageName := "image-stage-p:g1",
                        existsBefore := true, existsAfterSync := true,
                        lockOk := true, syncOk := true,
                        shouldBeReset := Except.ok true, untagOk := true }] }]).outcome
        = Except.error ConveyorShouldBeResetMsg ↔
      (∃ img ∈ [({ name := "app",
                   stages := [{ name := "gitCache", imageName := "image-stage-p:g1",
                                existsBefore := true, existsAfterSync := true,
                                lockOk := true, syncOk := true,
                                shouldBeReset := Except.ok true, untagOk := true }] } :
                     RenewPhase.Image)],
        ∃ s ∈ img.stages,
          (RenewPhase.existsAtRenewCheck s && RenewPhase.resetTrue s) = true)) ∧
    (RenewPhase.run ("p")
        [{ name := "app",
           stages := [{ name := "gitCache", imageName := "image-stage-p:g1",
                        existsBefore := true, existsAfterSync := true,
                        lockOk := true, syncOk := true,
                        shouldBeReset := Except.ok true, untagOk := true }] }]).untagged
      = [({ name := "app",
            stages := [{ name := "gitCache", imageName := "image-stage-p:g1",
                         existsBefore := true, existsAfterSync := true,
                         lockOk := true, syncOk := true,
                         shouldBeReset := Except.ok true, untagOk := true }] } :
              RenewPhase.Image)].flatMap
          (fun img => (img.stages.filter
            (fun s => RenewPhase.existsAtRenewCheck s && RenewPhase.resetTrue s)).map
            (fun s => s.imageName)) ∧
    ((RenewPhase.run ("p")
        [{ name := "app",
           stages := [{ name := "gitCache", imageName := "image-stage-p:g1",
                        existsBefore := true, existsAfterSync := true,
                        lockOk := true, syncOk := true,
                        shouldBeReset := Except.ok true, untagOk := true }] }]).outcome
        = Except.ok () ∨
      (RenewPhase.run ("p")
        [{ name := "app",
           stages := [{ name := "gitCache", imageName := "image-stage-p:g1",
                        existsBefore := true, existsAfterSync := true,
                        lockOk := true, syncOk := true,
                        shouldBeReset := Except.ok true, untagOk := true }] }]).outcome
        = Except.error ConveyorShouldBeResetMsg)) :=
  ⟨by
    intro img hImg s hS
    simp only [List.mem_singleton] at hImg
    subst hImg
    simp only [List.mem_singleton] at hS
    subst hS
    rfl,
   C4_renew_reset_sentinel ("p")
    [{ name := "app",
       stages := [{ name := "gitCache", imageName := "image-stage-p:g1",
                    existsBefore := true, existsAfterSync := true,
                    lockOk := true, syncOk := true,
                    shouldBeReset := Except.ok true, untagOk := true }] }]
    (by
      intro img hImg s hS
      simp only [List.mem_singleton] at hImg
      subst hImg
      simp only [List.mem_singleton] at hS
      subst hS
      rfl)⟩

theorem build_lockPass_ok :
    ∀ (project : String) (stages : List BuildPhase.Stage),
      (∀ s ∈ stages, (s.existsAtStart || (s.lockOk && s.syncOk)) = true) →
      BuildPhase.lockPass project stages
        = ((stages.filter (fun s => !s.existsAtStart)).map
             (fun s => BuildPhase.Ev.lock (imageLockName project s.imageName) emptyLockOptions),
           (stages.filter (fun s => !s.existsAtStart)).map
             (fun s => imageLockName project s.imageName),
           Except.ok ()) := by
  intro project stages h
  induction stages with
  | nil => rfl
  | cons s rest ih =>
    have hs := h s (List.mem_cons_self s rest)
    have hrest := ih (fun t ht => h t (List.mem_cons_of_mem s ht))
    simp only [BuildPhase.lockPass]
    by_cases hEx : s.existsAtStart = true
    · simp [hEx, hrest, List.filter_cons]
    · simp only [Bool.not_eq_true] at hEx
      rw [hEx] at hs
      simp only [Bool.false_or, Bool.and_eq_true] at hs
      simp [hEx, hs.1, hs.2, hrest, List.filter_cons]

theorem build_stageClosure_no_ops (t : BuildPhase.Stage) (nm : String)
    (h : (t.name == nm) = false) :
    ∀ ev ∈ (BuildPhase.stageClosure t).1, BuildPhase.evForStageName nm ev = false := by
  intro ev hev
  simp only [BuildPhase.stageClosure] at hev
  by_cases h1 : t.preRunOk = false
  · rw [if_pos h1] at hev
    simp at hev
    rw [hev]
    simp [BuildPhase.evForStageName, h]
  · rw [if_neg h1] at hev
    by_cases h2 : t.buildOk = false
    · rw [if_pos h2] at hev
      simp at hev
      rcases hev with hev | hev <;> (rw [hev]; simp [BuildPhase.evForStageName, h])
    · rw [if_neg h2] at hev
      by_cases h3 : t.saveOk = false
      · rw [if_pos h3] at hev
        simp at hev
        rcases hev with hev | hev | hev <;> (rw [hev]; simp [BuildPhase.evForStageName, h])
      · rw [if_neg h3] at hev
        simp at hev
        rcases hev with hev | hev | hev <;> (rw [hev]; simp [BuildPhase.evForStageName, h])

theorem build_popLock_no_ops (acq : List String) (nm : String) :
    ∀ ev ∈ (BuildPhase.popLock acq).1, BuildPhase.evForStageName nm ev = false := by
  intro ev hev
  cases acq with
  | nil => cases hev
  | cons n rest =>
    simp only [BuildPhase.popLock, List.mem_singleton] at hev
    rw [hev]
    rfl

theorem build_buildPass_usingCache_mem :
    ∀ (stages : List BuildPhase.Stage) (acq : List String) (errVar : Option String)
      (s : BuildPhase.Stage), s ∈ stages → BuildPhase.existsAtBuildCheck s = true →
      BuildPhase.Ev.usingCache s.name ∈ (BuildPhase.buildPass acq errVar stages).1 := by
  intro stages
  induction stages with
  | nil =>
    intro acq errVar s hs _
    cases hs
  | cons t rest ih =>
    intro acq errVar s hs hEx
    simp only [BuildPhase.buildPass]
    by_cases hT : BuildPhase.existsAtBuildCheck t = true
    · rcases hBP : BuildPhase.buildPass acq errVar rest with ⟨tr, acqOut, e⟩
      simp only [hT, if_true, hBP]
      rcases List.mem_cons.mp hs with hEq | hTail
      · subst hEq
        exact List.mem_cons_self _ _
      · have hmem := ih acq errVar s hTail hEx
        rw [hBP] at hmem
        have hmem2 : BuildPhase.Ev.usingCache s.name ∈ tr := hmem
        exact List.mem_cons_of_mem _ hmem2
    · have hST : s ≠ t := by
        intro hContra
        subst hContra
        exact hT hEx
      have hTail : s ∈ rest := by
        rcases List.mem_cons.mp hs with hEq | hTail
        · exact absurd hEq hST
        · exact hTail
      simp only [Bool.not_eq_true] at hT
      rcases hSC : BuildPhase.stageClosure t with ⟨str, errVar2⟩
      rcases hPL : BuildPhase.popLock acq with ⟨utr, acq2⟩
      rcases hBP : BuildPhase.buildPass acq2 errVar2 rest with ⟨tr, acqOut, e⟩
      simp only [hT, Bool.false_eq_true, if_false, hSC, hPL, hBP]
      have hmem := ih acq2 errVar2 s hTail hEx
      rw [hBP] at hmem
      have hmem2 : BuildPhase.Ev.usingCache s.name ∈ tr := hmem
      exact List.mem_append.mpr (Or.inr hmem2)

theorem build_buildPass_no_ops :
    ∀ (stages : List BuildPhase.Stage) (acq : List String) (errVar : Option String) (nm : String),
      (∀ s ∈ stages, BuildPhase.existsAtBuildCheck s = false → (s.name == nm) = false) →
      ∀ ev ∈ (BuildPhase.buildPass acq errVar stages).1,
        BuildPhase.evForStageName nm ev = false := by
  intro stages
  induction stages with
  | nil =>
    intro acq errVar nm _ ev hev
    cases hev
  | cons t rest ih =>
    intro acq errVar nm h ev hev
    have hrest := fun (acq2 : List String) (errVar2 : Option String) =>
      ih acq2 errVar2 nm (fun u hu => h u (List.mem_cons_of_mem t hu))
    simp only [BuildPhase.buildPass] at hev
    by_cases hT : BuildPhase.existsAtBuildCheck t = true
    · rcases hBP : BuildPhase.buildPass acq errVar rest with ⟨tr, acqOut, e⟩
      rw [hT] at hev
      simp only [if_true, hBP] at hev
      rcases List.mem_cons.mp hev with hEq | hTail
      · rw [hEq]
        rfl
      · have := hrest acq errVar ev
        rw [hBP] at this
        exact this hTail
    · simp only [Bool.not_eq_true] at hT
      rcases hSC : BuildPhase.stageClosure t with ⟨str, errVar2⟩
      rcases hPL : BuildPhase.popLock acq with ⟨utr, acq2⟩
      rcases hBP : BuildPhase.buildPass acq2 errVar2 rest with ⟨tr, acqOut, e⟩
      rw [hT] at hev
      simp only [Bool.false_eq_true, if_false, hSC, hPL, hBP, List.mem_append] at hev
      rcases hev with (hev | hev) | hev
      · have hNe : (t.name == nm) = false := h t (List.mem_cons_self t rest) hT
        have := build_stageClosure_no_ops t nm hNe ev
        rw [hSC] at this
        exact this hev
      · have := build_popLock_no_ops acq nm ev
        rw [hPL] at this
        exact this hev
      · have := hrest acq2 errVar2 ev
        rw [hBP] at this
        exact this hev

/-- C5: in `BuildPhase`, a stage whose image already exists at the build
pass (including one that became existent through the lock-pass
`SyncDockerState` because another process built it) is never built: the
trace of the run contains its `[USING CACHE]` log entry and no `PreRunHook`,
`Build` or `SaveInCache` invocation for it, while iteration continues over
the remaining stages.  Hypotheses: the lock pass completes (stages are
either already existing or lock and sync successfully) and stage names are
distinct within the image. -/
theorem C5_build_skips_existing (project : String) (stages : List BuildPhase.Stage)
    (hLock : ∀ s ∈ stages, (s.existsAtStart || (s.lockOk && s.syncOk)) = true)
    (hNames : ∀ s1 ∈ stages, ∀ s2 ∈ stages, s1.name = s2.name → s1 = s2) :
    ∀ s ∈ stages, BuildPhase.existsAtBuildCheck s = true →
      BuildPhase.Ev.usingCache s.name ∈ (BuildPhase.runImage project stages).1 ∧
      ∀ ev ∈ (BuildPhase.runImage project stages).1,
        BuildPhase.evForStageName s.name ev = false := by
  intro s hs hEx
  have hLP := build_lockPass_ok project stages hLock
  rcases hBP : BuildPhase.buildPass
      ((stages.filter (fun u => !u.existsAtStart)).map
        (fun u => imageLockName project u.imageName)) none stages with ⟨tr2, acqRem, errVar⟩
  have hTrace : (BuildPhase.runImage project stages).1
      = ((stages.filter (fun u => !u.existsAtStart)).map
           (fun u => BuildPhase.Ev.lock (imageLockName project u.imageName) emptyLockOptions))
        ++ tr2 ++ acqRem.map BuildPhase.Ev.unlock := by
    unfold BuildPhase.runImage
    rw [hLP]
    dsimp only
    rw [hBP]
  constructor
  · rw [hTrace]
    have hmem := build_buildPass_usingCache_mem stages
      ((stages.filter (fun u => !u.existsAtStart)).map
        (fun u => imageLockName project u.imageName)) none s hs hEx
    rw [hBP] at hmem
    have hmem2 : BuildPhase.Ev.usingCache s.name ∈ tr2 := hmem
    exact List.mem_append.mpr (Or.inl (List.mem_append.mpr (Or.inr hmem2)))
  · intro ev hev
    rw [hTrace] at hev
    rcases List.mem_append.mp hev with hev2 | hev2
    · rcases List.mem_append.mp hev2 with hev3 | hev3
      · rcases List.mem_map.mp hev3 with ⟨u, _, hu⟩
        rw [← hu]
        rfl
      · have hNoOps := build_buildPass_no_ops stages
          ((stages.filter (fun u => !u.existsAtStart)).map
            (fun u => imageLockName project u.imageName)) none s.name
          (fun u hu hUEx => by
            by_cases hEq : (u.name == s.name) = true
            · exfalso
              have hNameEq : u.name = s.name := by
                simpa using hEq
              have := hNames u hu s hs hNameEq
              subst this
              rw [hEx] at hUEx
              cases hUEx
            · simpa using hEq) ev
        rw [hBP] at hNoOps
        exact hNoOps hev3
    · rcases List.mem_map.mp hev2 with ⟨n, _, hn⟩
      rw [← hn]
      rfl

/-- Witness for C5: a two-stage image whose first stage image exists and
whose second is built; the existing stage is served from cache and never
built. -/
theorem C5_build_skips_existing_witness :
    (∀ s ∈ [({ name := "install", imageName := "i1", existsAtStart := true,
               existsAfterSync := true, lockOk := true, syncOk := true,
               preRunOk := true, buildOk := true, saveOk := true } : BuildPhase.Stage),
             { name := "setup", imageName := "i2", existsAtStart := false,
               existsAfterSync := false, lockOk := true, syncOk := true,
               preRunOk := true, buildOk := true, saveOk := true }],
      (s.existsAtStart || (s.lockOk && s.syncOk)) = true) ∧
    (∀ s1 ∈ [({ name := "install", imageName := "i1", existsAtStart := true,
                existsAfterSync := true, lockOk := true, syncOk := true,
                preRunOk := true, buildOk := true, saveOk := true } : BuildPhase.Stage),
              { name := "setup", imageName := "i2", existsAtStart := false,
                existsAfterSync := false, lockOk := true, syncOk := true,
                preRunOk := true, buildOk := true, saveOk := true }],
      ∀ s2 ∈ [({ name := "install", imageName := "i1", existsAtStart := true,
                 existsAfterSync := true, lockOk := true, syncOk := true,
                 preRunOk := true, buildOk := true, saveOk := true } : BuildPhase.Stage),
               { name := "setup", imageName := "i2", existsAtStart := false,
                 existsAfterSync := false, lockOk := true, syncOk := true,
                 preRunOk := true, buildOk := true, saveOk := true }],
        s1.name = s2.name → s1 = s2) ∧
    (BuildPhase.Ev.usingCache ("install") ∈
      (BuildPhase.runImage ("p")
        [{ name := "install", imageName := "i1", existsAtStart := true,
           existsAfterSync := true, lockOk := true, syncOk := true,
           preRunOk := true, buildOk := true, saveOk := true },
         { name := "setup", imageName := "i2", existsAtStart := false,
           existsAfterSync := false, lockOk := true, syncOk := true,
           preRunOk := true, buildOk := true, saveOk := true }]).1 ∧
     ∀ ev ∈ (BuildPhase.runImage ("p")
        [{ name := "install", imageName := "i1", existsAtStart := true,
           existsAfterSync := true, lockOk := true, syncOk := true,
           preRunOk := true, buildOk := true, saveOk := true },
         { name := "setup", imageName := "i2", existsAtStart := false,
           existsAfterSync := false, lockOk := true, syncOk := true,
           preRunOk := true, buildOk := true, saveOk := true }]).1,
        BuildPhase.evForStageName ("install") ev = false) :=
  ⟨by decide, by decide,
    C5_build_skips_existing ("p")
      [{ name := "install", imageName := "i1", existsAtStart := true,
         existsAfterSync := true, lockOk := true, syncOk := true,
         preRunOk := true, buildOk := true, saveOk := true },
       { name := "setup", imageName := "i2", existsAtStart := false,
         existsAfterSync := false, lockOk := true, syncOk := true,
         preRunOk := true, buildOk := true, saveOk := true }]
      (by decide) (by decide)
      { name := "install", imageName := "i1", existsAtStart := true,
        existsAfterSync := true, lockOk := true, syncOk := true,
        preRunOk := true, buildOk := true, saveOk := true }
      (by decide) (by decide)⟩

theorem gitstage_runHooks_claimed :
    ∀ (gs : List GitStage.HookObs) (slot : String), slot ≠ "" →
      GitStage.runHooks slot gs = (slot, []) := by
  intro gs
  induction gs with
  | nil =>
    intro slot _
    rfl
  | cons g rest ih =>
    intro slot h
    have hrest := ih slot h
    simp only [GitStage.runHooks, GitStage.afterImageSyncDockerStateHook]
    by_cases hEx : g.imageExists = false
    · simp [hEx, h, hrest]
    · simp [hEx, hrest]

/-- C8: for every image, the `buildingGitStage` slot is claimed by exactly
one git stage per run — the first git stage (in canonical order) whose
image does not exist sets it in `AfterImageSyncDockerStateHook`, later git
stages leave the set value unchanged, and when every git-stage image
exists nobody claims it.  The setter list records which hook invocations
wrote the slot. -/
theorem C8_building_git_stage_first_claims (gs : List GitStage.HookObs)
    (h : ∀ g ∈ gs, g.name ≠ "") :
    GitStage.runHooks ("") gs
      = (match gs.find? (fun g => !g.imageExists) with
         | some g => (g.name, [g.name])
         | none => ("", [])) := by
  induction gs with
  | nil => rfl
  | cons g rest ih =>
    have hg := h g (List.mem_cons_self g rest)
    have hrest := ih (fun u hu => h u (List.mem_cons_of_mem g hu))
    by_cases hEx : g.imageExists = false
    · have hclaim := gitstage_runHooks_claimed rest g.name hg
      simp [GitStage.runHooks, GitStage.afterImageSyncDockerStateHook, hEx, hclaim,
        List.find?_cons]
    · simp only [Bool.not_eq_false] at hEx
      simp [GitStage.runHooks, GitStage.afterImageSyncDockerStateHook, hEx, hrest,
        List.find?_cons]

/-- Witness for C8: of three git stages where the first image exists and
the next two do not, exactly the second stage claims the slot. -/
theorem C8_building_git_stage_first_claims_witness :
    (∀ g ∈ [({ name := "gitCache", imageExists := true } : GitStage.HookObs),
            { name := "install", imageExists := false },
            { name := "setup", imageExists := false }], g.name ≠ "") ∧
    GitStage.runHooks ("")
        [({ name := "gitCache", imageExists := true } : GitStage.HookObs),
         { name := "install", imageExists := false },
         { name := "setup", imageExists := false }]
      = (match [({ name := "gitCache", imageExists := true } : GitStage.HookObs),
                { name := "install", imageExists := false },
                { name := "setup", imageExists := false }].find?
            (fun g => !g.imageExists) with
         | some g => (g.name, [g.name])
         | none => ("", [])) :=
  ⟨by decide,
   C8_building_git_stage_first_claims
     [({ name := "gitCache", imageExists := true } : GitStage.HookObs),
      { name := "install", imageExists := false },
      { name := "setup", imageExists := false }] (by decide)⟩

theorem renew_lockPass_opts :
    ∀ (project : String) (stages : List RenewPhase.Stage),
      ∀ ev ∈ (RenewPhase.lockPass project stages).1, lockEvOptsDefault ev = true := by
  intro project stages
  induction stages with
  | nil =>
    intro ev hev
    cases hev
  | cons s rest ih =>
    intro ev hev
    simp only [RenewPhase.lockPass] at hev
    by_cases hEx : s.existsBefore = false
    · rw [if_pos hEx] at hev
      exact ih ev hev
    · rw [if_neg hEx] at hev
      by_cases hL : s.lockOk = false
      · rw [if_pos hL] at hev
        cases hev
      · rw [if_neg hL] at hev
        by_cases hS : s.syncOk = false
        · rw [if_pos hS] at hev
          simp at hev
          rw [hev]
          rfl
        · rw [if_neg hS] at hev
          rcases hLP : RenewPhase.lockPass project rest with ⟨tr, acq, res⟩
          rw [hLP] at hev
          simp only [List.mem_cons] at hev
          rcases hev with hev | hev
          · rw [hev]
            rfl
          · have := ih ev
            rw [hLP] at this
            exact this hev

theorem renew_runImage_opts :
    ∀ (project : String) (img : RenewPhase.Image),
      ∀ ev ∈ (RenewPhase.runImage project img).1, lockEvOptsDefault ev = true := by
  intro project img ev hev
  have hmain : ∀ tr acq res, RenewPhase.lockPass project img.stages = (tr, acq, res) →
      ev ∈ tr ++ RenewPhase.unlockLocks acq → lockEvOptsDefault ev = true := by
    intro tr acq res hLP hmem
    rcases List.mem_append.mp hmem with hmem | hmem
    · have := renew_lockPass_opts project img.stages ev
      rw [hLP] at this
      exact this hmem
    · rcases List.mem_map.mp hmem with ⟨n, _, hn⟩
      rw [← hn]
      rfl
  rcases hLP : RenewPhase.lockPass project img.stages with ⟨tr, acq, res⟩
  simp only [RenewPhase.runImage, hLP] at hev
  cases res with
  | error e =>
    exact hmain tr acq (Except.error e) hLP hev
  | ok u =>
    rcases hBP : RenewPhase.buildPass img.stages with ⟨us, r⟩
    rw [hBP] at hev
    cases r with
    | error e => exact hmain tr acq (Except.ok u) hLP hev
    | ok flag => exact hmain tr acq (Except.ok u) hLP hev

theorem renew_run_opts :
    ∀ (project : String) (images : List RenewPhase.Image),
      ∀ ev ∈ (RenewPhase.run project images).trace, lockEvOptsDefault ev = true := by
  intro project images
  have hMain : ∀ ev ∈ (RenewPhase.runImages project images).1, lockEvOptsDefault ev = true := by
    induction images with
    | nil =>
      intro ev hev
      cases hev
    | cons img rest ih =>
      intro ev hev
      simp only [RenewPhase.runImages] at hev
      rcases hRI : RenewPhase.runImage project img with ⟨tr, us, res⟩
      rw [hRI] at hev
      have hImgOpts : ∀ e2 ∈ tr, lockEvOptsDefault e2 = true := by
        intro e2 he2
        have := renew_runImage_opts project img e2
        rw [hRI] at this
        exact this he2
      cases res with
      | error e =>
        exact hImgOpts ev hev
      | ok flag =>
        rcases hRR : RenewPhase.runImages project rest with ⟨tr2, us2, res2⟩
        rw [hRR] at hev
        have hRest : ∀ e2 ∈ tr2, lockEvOptsDefault e2 = true := by
          intro e2 he2
          have := ih e2
          rw [hRR] at this
          exact this he2
        cases res2 with
        | error e =>
          rcases List.mem_append.mp hev with hev | hev
          · exact hImgOpts ev hev
          · exact hRest ev hev
        | ok flag2 =>
          rcases List.mem_append.mp hev with hev | hev
          · exact hImgOpts ev hev
          · exact hRest ev hev
  intro ev hev
  rcases hRR : RenewPhase.runImages project images with ⟨tr, us, res⟩
  simp only [RenewPhase.run, hRR] at hev
  have := hMain ev
  rw [hRR] at this
  cases res with
  | error e => exact this hev
  | ok flag => exact this hev

theorem build_stageClosure_opts (t : BuildPhase.Stage) :
    ∀ ev ∈ (BuildPhase.stageClosure t).1, BuildPhase.buildEvOptsDefault ev = true := by
  intro ev hev
  simp only [BuildPhase.stageClosure] at hev
  by_cases h1 : t.preRunOk = false
  · rw [if_pos h1] at hev
    simp at hev
    rw [hev]
    rfl
  · rw [if_neg h1] at hev
    by_cases h2 : t.buildOk = false
    · rw [if_pos h2] at hev
      simp at hev
      rcases hev with hev | hev <;> (rw [hev]; rfl)
    · rw [if_neg h2] at hev
      by_cases h3 : t.saveOk = false
      · rw [if_pos h3] at hev
        simp at hev
        rcases hev with hev | hev | hev <;> (rw [hev]; rfl)
      · rw [if_neg h3] at hev
        simp at hev
        rcases hev with hev | hev | hev <;> (rw [hev]; rfl)

theorem build_lockPass_opts :
    ∀ (project : String) (stages : List BuildPhase.Stage),
      ∀ ev ∈ (BuildPhase.lockPass project stages).1, BuildPhase.buildEvOptsDefault ev = true := by
  intro project stages
  induction stages with
  | nil =>
    intro ev hev
    cases hev
  | cons s rest ih =>
    intro ev hev
    simp only [BuildPhase.lockPass] at hev
    by_cases hEx : s.existsAtStart = true
    · rw [if_pos hEx] at hev
      exact ih ev hev
    · rw [if_neg hEx] at hev
      by_cases hL : s.lockOk = false
      · rw [if_pos hL] at hev
        cases hev
      · rw [if_neg hL] at hev
        by_cases hS : s.syncOk = false
        · rw [if_pos hS] at hev
          simp at hev
          rw [hev]
          rfl
        · rw [if_neg hS] at hev
          rcases hLP : BuildPhase.lockPass project rest with ⟨tr, acq, res⟩
          rw [hLP] at hev
          simp only [List.mem_cons] at hev
          rcases hev with hev | hev
          · rw [hev]
            rfl
          · have := ih ev
            rw [hLP] at this
            exact this hev

theorem build_buildPass_opts :
    ∀ (stages : List BuildPhase.Stage) (acq : List String) (errVar : Option String),
      ∀ ev ∈ (BuildPhase.buildPass acq errVar stages).1, BuildPhase.buildEvOptsDefault ev = true := by
  intro stages
  induction stages with
  | nil =>
    intro acq errVar ev hev
    cases hev
  | cons t rest ih =>
    intro acq errVar ev hev
    simp only [BuildPhase.buildPass] at hev
    by_cases hT : BuildPhase.existsAtBuildCheck t = true
    · rcases hBP : BuildPhase.buildPass acq errVar rest with ⟨tr, acqOut, e⟩
      rw [hT] at hev
      simp only [if_true, hBP, List.mem_cons] at hev
      rcases hev with hev | hev
      · rw [hev]
        rfl
      · have := ih acq errVar ev
        rw [hBP] at this
        exact this hev
    · simp only [Bool.not_eq_true] at hT
      rcases hSC : BuildPhase.stageClosure t with ⟨str, errVar2⟩
      rcases hPL : BuildPhase.popLock acq with ⟨utr, acq2⟩
      rcases hBP : BuildPhase.buildPass acq2 errVar2 rest with ⟨tr, acqOut, e⟩
      rw [hT] at hev
      simp only [Bool.false_eq_true, if_false, hSC, hPL, hBP, List.mem_append] at hev
      rcases hev with (hev | hev) | hev
      · have := build_stageClosure_opts t ev
        rw [hSC] at this
        exact this hev
      · cases acq with
        | nil =>
          simp [BuildPhase.popLock] at hPL
          rw [hPL.1] at hev
          cases hev
        | cons n ns =>
          simp [BuildPhase.popLock] at hPL
          rw [← hPL.1] at hev
          simp at hev
          rw [hev]
          rfl
      · have := ih acq2 errVar2 ev
        rw [hBP] at this
        exact this hev

theorem build_runImage_opts :
    ∀ (project : String) (stages : List BuildPhase.Stage),
      ∀ ev ∈ (BuildPhase.runImage project stages).1, BuildPhase.buildEvOptsDefault ev = true := by
  intro project stages ev hev
  rcases hLP : BuildPhase.lockPass project stages with ⟨tr, acq, res⟩
  simp only [BuildPhase.runImage, hLP] at hev
  have hLock : ∀ e2 ∈ tr, BuildPhase.buildEvOptsDefault e2 = true := by
    intro e2 he2
    have := build_lockPass_opts project stages e2
    rw [hLP] at this
    exact this he2
  cases res with
  | error e =>
    rcases List.mem_append.mp hev with hev | hev
    · exact hLock ev hev
    · rcases List.mem_map.mp hev with ⟨n, _, hn⟩
      rw [← hn]
      rfl
  | ok u =>
    have hev2 : ev ∈ tr ++ (BuildPhase.buildPass acq none stages).1
        ++ ((BuildPhase.buildPass acq none stages).2.1).map BuildPhase.Ev.unlock := hev
    rcases List.mem_append.mp hev2 with hev3 | hev3
    · rcases List.mem_append.mp hev3 with hev4 | hev4
      · exact hLock ev hev4
      · exact build_buildPass_opts stages acq none ev hev4
    · rcases List.mem_map.mp hev3 with ⟨n, _, hn⟩
      rw [← hn]
      rfl

/-- C9 counterexample: the claim says every core lock acquisition carries a
600-second timeout, but the per-stage image lock taken by `RenewPhase` (and
`BuildPhase`) is acquired with the Go zero-value `lock.LockOptions{}`,
whose timeout is unset — under the lock-manager contract of spec §4.1 the
default is unbounded, not 600 seconds. -/
theorem C9_stage_lock_timeout_counterexample :
    (RenewPhase.run ("demo")
        [{ name := "app",
           stages := [{ name := "install", imageName := "i1",
                        existsBefore := true, existsAfterSync := true,
                        lockOk := true, syncOk := true,
                        shouldBeReset := Except.ok false, untagOk := true }] }]).trace
      = [LockEv.lock ("demo.image.i1") emptyLockOptions] ∧
    (emptyLockOptions.timeout == some 600) = false :=
  ⟨rfl, by decide⟩

/-- C9 (amended): only the git work-tree lock and the remote-repo lock
carry an explicit 600-second timeout; the per-stage image locks taken by
`RenewPhase` and `BuildPhase` are acquired with the zero-value options
(timeout unset, default unbounded under §4.1), so they have no 600-second
bound. -/
theorem C9_lock_timeouts :
    workTreeLockOptions.timeout = some 600 ∧
    remoteRepoLockOptions.timeout = some 600 ∧
    emptyLockOptions.timeout = none ∧
    (∀ (project : String) (images : List RenewPhase.Image),
      ∀ ev ∈ (RenewPhase.run project images).trace, lockEvOptsDefault ev = true) ∧
    (∀ (project : String) (stages : List BuildPhase.Stage),
      ∀ ev ∈ (BuildPhase.runImage project stages).1, BuildPhase.buildEvOptsDefault ev = true) :=
  ⟨rfl, rfl, rfl, renew_run_opts, build_runImage_opts⟩

/-- Witness for C9 at a concrete one-stage renew run and build run. -/
theorem C9_lock_timeouts_witness :
    (LockEv.lock ("demo.image.i1") emptyLockOptions ∈
      (RenewPhase.run ("demo")
        [{ name := "app",
           stages := [{ name := "install", imageName := "i1",
                        existsBefore := true, existsAfterSync := true,
                        lockOk := true, syncOk := true,
                        shouldBeReset := Except.ok false, untagOk := true }] }]).trace ∧
     lockEvOptsDefault (LockEv.lock ("demo.image.i1") emptyLockOptions) = true) ∧
    (BuildPhase.Ev.lock ("demo.image.i2") emptyLockOptions ∈
      (BuildPhase.runImage ("demo")
        [{ name := "setup", imageName := "i2", existsAtStart := false,
           existsAfterSync := false, lockOk := true, syncOk := true,
           preRunOk := true, buildOk := true, saveOk := true }]).1 ∧
     BuildPhase.buildEvOptsDefault (BuildPhase.Ev.lock ("demo.image.i2") emptyLockOptions) = true) :=
  ⟨⟨by decide,
    C9_lock_timeouts.2.2.2.1 ("demo")
      [{ name := "app",
         stages := [{ name := "install", imageName := "i1",
                      existsBefore := true, existsAfterSync := true,
                      lockOk := true, syncOk := true,
                      shouldBeReset := Except.ok false, untagOk := true }] }]
      (LockEv.lock ("demo.image.i1") emptyLockOptions) (by decide)⟩,
   ⟨by decide,
    C9_lock_timeouts.2.2.2.2 ("demo")
      [{ name := "setup", imageName := "i2", existsAtStart := false,
         existsAfterSync := false, lockOk := true, syncOk := true,
         preRunOk := true, buildOk := true, saveOk := true }]
      (BuildPhase.Ev.lock ("demo.image.i2") emptyLockOptions) (by decide)⟩⟩

/-- C10: `isCommitExists` distinguishes absence from failure — it returns
`(false, nil)` exactly when the repository opens, the hash parses, and the
commit lookup cleanly reports object-not-found; it returns `(true, nil)`
exactly when the commit is found; any open, parse or other lookup failure
is an error.  `GitStage.ShouldBeReset` relies on the distinction: it
reports reset-required only when the commit of some git path is genuinely
missing, and propagates `isCommitExists` errors unchanged. -/
theorem C10_is_commit_exists_distinguishes :
    (∀ (repo : GitRepo.Repo) (commit : String),
      (GitRepo.isCommitExists repo commit = Except.ok false ↔
        (repo.openOk = true ∧ GitRepo.hashParses commit = true ∧
         repo.lookupErrors.lookup commit = none ∧ repo.commits.contains commit = false)) ∧
      (GitRepo.isCommitExists repo commit = Except.ok true ↔
        (repo.openOk = true ∧ GitRepo.hashParses commit = true ∧
         repo.lookupErrors.lookup commit = none ∧ repo.commits.contains commit = true)) ∧
      ((repo.openOk = false ∨ GitRepo.hashParses commit = false ∨
        (∃ e, repo.lookupErrors.lookup commit = some e)) →
        ∃ msg, GitRepo.isCommitExists repo commit = Except.error msg)) ∧
    (∀ (gps : List GitStage.GitPathObs),
      (GitStage.ShouldBeReset gps = Except.ok true →
        ∃ gp ∈ gps, GitRepo.isCommitExists gp.repo gp.commit = Except.ok false) ∧
      (∀ e, GitStage.ShouldBeReset gps = Except.error e →
        ∃ gp ∈ gps, GitRepo.isCommitExists gp.repo gp.commit = Except.error e)) := by
  constructor
  · intro repo commit
    by_cases hOpen : repo.openOk = false
    · simp [GitRepo.isCommitExists, hOpen]
    · simp only [Bool.not_eq_false] at hOpen
      by_cases hParse : GitRepo.hashParses commit = false
      · simp [GitRepo.isCommitExists, hOpen, hParse]
      · simp only [Bool.not_eq_false] at hParse
        cases hLook : repo.lookupErrors.lookup commit with
        | some e => simp [GitRepo.isCommitExists, hOpen, hParse, hLook]
        | none =>
          cases hContains : repo.commits.contains commit with
          | false =>
            have hC2 := hContains
            simp at hC2
            simp [GitRepo.isCommitExists, hOpen, hParse, hLook, hContains, hC2]
          | true =>
            have hC2 := hContains
            simp at hC2
            simp [GitRepo.isCommitExists, hOpen, hParse, hLook, hContains, hC2]
  · intro gps
    induction gps with
    | nil =>
      refine ⟨fun hC => ?_, fun e hC => ?_⟩
      · cases hC
      · cases hC
    | cons gp rest ih =>
      constructor
      · intro hC
        simp only [GitStage.ShouldBeReset] at hC
        cases hICE : GitRepo.isCommitExists gp.repo gp.commit with
        | error e =>
          rw [hICE] at hC
          cases hC
        | ok b =>
          rw [hICE] at hC
          cases b with
          | false =>
            exact ⟨gp, List.mem_cons_self gp rest, hICE⟩
          | true =>
            rcases ih.1 hC with ⟨gp2, hgp2, h2⟩
            exact ⟨gp2, List.mem_cons_of_mem gp hgp2, h2⟩
      · intro e hC
        simp only [GitStage.ShouldBeReset] at hC
        cases hICE : GitRepo.isCommitExists gp.repo gp.commit with
        | error e2 =>
          rw [hICE] at hC
          cases hC
          exact ⟨gp, List.mem_cons_self gp rest, hICE⟩
        | ok b =>
          rw [hICE] at hC
          cases b with
          | false => cases hC
          | true =>
            rcases ih.2 e hC with ⟨gp2, hgp2, h2⟩
            exact ⟨gp2, List.mem_cons_of_mem gp hgp2, h2⟩

/-- Witness for C10: a missing (but well-formed) commit yields `(false,
nil)` and makes `ShouldBeReset` report reset; an unparseable hash yields an
error. -/
theorem C10_is_commit_exists_distinguishes_witness :
    (GitRepo.isCommitExists
        { openOk := true, commits := [], lookupErrors := [] }
        ("aaaaaaaaaaaaaaaaaaaaaaaaaaaaaaaaaaaaaaaa")
      = Except.ok false ↔
      (({ openOk := true, commits := [], lookupErrors := [] } : GitRepo.Repo).openOk = true ∧
       GitRepo.hashParses ("aaaaaaaaaaaaaaaaaaaaaaaaaaaaaaaaaaaaaaaa") = true ∧
       ({ openOk := true, commits := [], lookupErrors := [] } :
          GitRepo.Repo).lookupErrors.lookup ("aaaaaaaaaaaaaaaaaaaaaaaaaaaaaaaaaaaaaaaa")
         = none ∧
       ({ openOk := true, commits := [], lookupErrors := [] } :
          GitRepo.Repo).commits.contains ("aaaaaaaaaaaaaaaaaaaaaaaaaaaaaaaaaaaaaaaa")
         = false)) ∧
    (GitStage.ShouldBeReset
        [{ repo := { openOk := true, commits := [], lookupErrors := [] },
           commit := "aaaaaaaaaaaaaaaaaaaaaaaaaaaaaaaaaaaaaaaa" }]
      = Except.ok true →
      ∃ gp ∈ [({ repo := { openOk := true, commits := [], lookupErrors := [] },
                 commit := "aaaaaaaaaaaaaaaaaaaaaaaaaaaaaaaaaaaaaaaa" } :
                   GitStage.GitPathObs)],
        GitRepo.isCommitExists gp.repo gp.commit = Except.ok false) :=
  ⟨(C10_is_commit_exists_distinguishes.1
      { openOk := true, commits := [], lookupErrors := [] }
      ("aaaaaaaaaaaaaaaaaaaaaaaaaaaaaaaaaaaaaaaa")).1,
   (C10_is_commit_exists_distinguishes.2
      [{ repo := { openOk := true, commits := [], lookupErrors := [] },
         commit := "aaaaaaaaaaaaaaaaaaaaaaaaaaaaaaaaaaaaaaaa" }]).1⟩

theorem charListLe_total : ∀ a b : List Char,
    GitRepo.charListLe a b = true ∨ GitRepo.charListLe b a = true := by
  intro a
  induction a with
  | nil => intro b; left; rfl
  | cons x xs ih =>
    intro b
    cases b with
    | nil => right; rfl
    | cons y ys =>
      rcases lt_trichotomy x y with h | h | h
      · left
        simp [GitRepo.charListLe, h]
      · subst h
        rcases ih ys with h2 | h2
        · left
          simp [GitRepo.charListLe, h2]
        · right
          simp [GitRepo.charListLe, h2]
      · right
        simp [GitRepo.charListLe, h]

theorem charListLe_antisymm : ∀ a b : List Char,
    GitRepo.charListLe a b = true → GitRepo.charListLe b a = true → a = b := by
  intro a
  induction a with
  | nil =>
    intro b _ h2
    cases b with
    | nil => rfl
    | cons y ys => simp [GitRepo.charListLe] at h2
  | cons x xs ih =>
    intro b h1 h2
    cases b with
    | nil => simp [GitRepo.charListLe] at h1
    | cons y ys =>
      rcases lt_trichotomy x y with h | h | h
      · simp [GitRepo.charListLe, h, asymm h] at h2
      · subst h
        simp only [GitRepo.charListLe, lt_irrefl, if_false] at h1 h2
        rw [ih ys h1 h2]
      · simp [GitRepo.charListLe, h, asymm h] at h1

theorem charListLe_trans : ∀ a b c : List Char,
    GitRepo.charListLe a b = true → GitRepo.charListLe b c = true →
    GitRepo.charListLe a c = true := by
  intro a
  induction a with
  | nil => intro b c _ _; rfl
  | cons x xs ih =>
    intro b c h1 h2
    cases b with
    | nil => simp [GitRepo.charListLe] at h1
    | cons y ys =>
      cases c with
      | nil => simp [GitRepo.charListLe] at h2
      | cons z zs =>
        rcases lt_trichotomy x y with hxy | hxy | hxy
        · rcases lt_trichotomy y z with hyz | hyz | hyz
          · simp [GitRepo.charListLe, lt_trans hxy hyz]
          · subst hyz
            simp [GitRepo.charListLe, hxy]
          · simp [GitRepo.charListLe, hyz, asymm hyz] at h2
        · subst hxy
          rcases lt_trichotomy x z with hyz | hyz | hyz
          · simp [GitRepo.charListLe, hyz]
          · subst hyz
            simp only [GitRepo.charListLe, lt_irrefl, if_false] at h1 h2 ⊢
            exact ih ys zs h1 h2
          · simp [GitRepo.charListLe, hyz, asymm hyz] at h2
        · simp [GitRepo.charListLe, hxy, asymm hxy] at h1

theorem sortStrings_perm_inv {l1 l2 : List String} (h : l1.Perm l2) :
    GitRepo.sortStrings l1 = GitRepo.sortStrings l2 :=
  @List.eq_of_perm_of_sorted String (fun a b => GitRepo.strLe a b = true)
    ⟨fun a b h1 h2 => by
      have h3 := charListLe_antisymm a.data b.data h1 h2
      cases a
      cases b
      simp_all⟩
    _ _
    (((List.perm_insertionSort _ l1).trans h).trans (List.perm_insertionSort _ l2).symm)
    (@List.sorted_insertionSort String (fun a b => GitRepo.strLe a b = true) _
      ⟨fun a b => charListLe_total a.data b.data⟩
      ⟨fun a b c h1 h2 => charListLe_trans a.data b.data c.data h1 h2⟩ l1)
    (@List.sorted_insertionSort String (fun a b => GitRepo.strLe a b = true) _
      ⟨fun a b => charListLe_total a.data b.data⟩
      ⟨fun a b c h1 h2 => charListLe_trans a.data b.data c.data h1 h2⟩ l2)

theorem hashFiles_congr (wt1 wt2 : String → Option (Nat × GitRepo.FileBody)) :
    ∀ (paths : List String), (∀ p ∈ paths, wt1 p = wt2 p) →
      GitRepo.hashFiles wt1 paths = GitRepo.hashFiles wt2 paths := by
  intro paths h
  induction paths with
  | nil => rfl
  | cons p rest ih =>
    have hp := h p (List.mem_cons_self p rest)
    have hrest := ih (fun u hu => h u (List.mem_cons_of_mem p hu))
    simp only [GitRepo.hashFiles, hp, hrest]

theorem string_eq_of_data_eq {s t : String} (h : s.data = t.data) : s = t := by
  cases s
  cases t
  simp_all

theorem fileRecord_data_inj {p q : String} {m : Nat} {b : GitRepo.FileBody}
    (h : (GitRepo.fileRecord p m b).data = (GitRepo.fileRecord q m b).data) : p = q := by
  unfold GitRepo.fileRecord at h
  rw [String.data_append, String.data_append, String.data_append, String.data_append] at h
  have h2 := List.append_cancel_right h
  have h3 := List.append_cancel_right h2
  exact string_eq_of_data_eq h3

theorem hashFiles_rename_changes :
    ∀ (X : List String) (wt1 wt2 : String → Option (Nat × GitRepo.FileBody))
      (Y : List String) (p q : String) (m : Nat) (b : GitRepo.FileBody)
      (s1 s2 : List Char),
      p ≠ q →
      (∀ x ∈ X, wt1 x = wt2 x) → (∀ y ∈ Y, wt1 y = wt2 y) →
      wt1 p = some (m, b) → wt2 q = some (m, b) →
      GitRepo.hashFiles wt1 (X ++ p :: Y) = Except.ok s1 →
      GitRepo.hashFiles wt2 (X ++ q :: Y) = Except.ok s2 →
      s1 ≠ s2 := by
  intro X
  induction X with
  | nil =>
    intro wt1 wt2 Y p q m b s1 s2 hpq _ hY hp hq h1 h2
    have hYeq := hashFiles_congr wt1 wt2 Y hY
    cases hRest : GitRepo.hashFiles wt1 Y with
    | error e =>
      simp only [List.nil_append, GitRepo.hashFiles, hp, hRest] at h1
      cases h1
    | ok r =>
      have hRest2 : GitRepo.hashFiles wt2 Y = Except.ok r := by
        rw [← hYeq]
        exact hRest
      simp only [List.nil_append, GitRepo.hashFiles, hp, hRest, Except.ok.injEq] at h1
      simp only [List.nil_append, GitRepo.hashFiles, hq, hRest2, Except.ok.injEq] at h2
      subst h1
      subst h2
      intro hContra
      exact hpq (fileRecord_data_inj (List.append_cancel_right hContra))
  | cons x X2 ih =>
    intro wt1 wt2 Y p q m b s1 s2 hpq hX hY hp hq h1 h2
    have hx := hX x (List.mem_cons_self x X2)
    have hX2 := fun u hu => hX u (List.mem_cons_of_mem x hu)
    cases hwx : wt1 x with
    | none =>
      simp only [List.cons_append, GitRepo.hashFiles, hwx] at h1
      cases h1
    | some mb =>
      obtain ⟨mx, bx⟩ := mb
      have hwx2 : wt2 x = some (mx, bx) := by
        rw [← hx]
        exact hwx
      cases hR1 : GitRepo.hashFiles wt1 (X2 ++ p :: Y) with
      | error e =>
        simp only [List.cons_append, GitRepo.hashFiles, List.append_eq, hwx, hR1] at h1
        cases h1
      | ok r1 =>
        cases hR2 : GitRepo.hashFiles wt2 (X2 ++ q :: Y) with
        | error e =>
          simp only [List.cons_append, GitRepo.hashFiles, List.append_eq, hwx2, hR2] at h2
          cases h2
        | ok r2 =>
          simp only [List.cons_append, GitRepo.hashFiles, List.append_eq, hwx, hR1, Except.ok.injEq] at h1
          simp only [List.cons_append, GitRepo.hashFiles, List.append_eq, hwx2, hR2, Except.ok.injEq] at h2
          subst h1
          subst h2
          have hNe := ih wt1 wt2 Y p q m b r1 r2 hpq hX2 hY hp hq hR1 hR2
          intro hContra
          exact hNe (List.append_cancel_left hContra)

/-- C7 counterexample: renaming a matched file does not always change the
digest.  Work tree A holds regular files `4x` and `4x4`, both with mode
`004` (octal string `4`) and empty content; renaming `4x` to `x4` (work
tree B) yields the identical hash-input byte stream `4x44x44`, because the
unseparated `path ++ mode ++ content` concatenation re-segments across the
re-sorted path list — so the SHA-256 digest is unchanged for any hash
function. -/
theorem C7_rename_counterexample :
    GitRepo.checksum
        (fun p => if p = "4x" then some (4, GitRepo.FileBody.regular (""))
                  else if p = "4x4" then some (4, GitRepo.FileBody.regular ("")) else none)
        (fun _ => true) (fun _ => ["4x", "4x4"]) ["*"]
      = Except.ok (String.data ("4x44x44")) ∧
    GitRepo.checksum
        (fun p => if p = "x4" then some (4, GitRepo.FileBody.regular (""))
                  else if p = "4x4" then some (4, GitRepo.FileBody.regular ("")) else none)
        (fun _ => true) (fun _ => ["x4", "4x4"]) ["*"]
      = Except.ok (String.data ("4x44x44")) ∧
    ("4x" == "x4") = false :=
  ⟨rfl, rfl, by decide⟩

/-- C7 (amended): the checksum is order-independent over the input path
patterns — permuting the pattern list never changes the hash input, because
matched paths are sorted before hashing.  Renaming a matched file changes
the bytes written into the hash (hence the digest, absent SHA-256
collisions) whenever the renamed file keeps its position in the sorted
matched-path order (in particular always when it is the only matched
file); in general a rename that re-sorts the list need not change the
stream, as the counterexample shows. -/
theorem C7_checksum_order_independent_rename :
    (∀ (wt : String → Option (Nat × GitRepo.FileBody)) (keep : String → Bool)
       (matchFn : String → List String) (p1 p2 : List String),
       p1.Perm p2 →
       GitRepo.checksum wt keep matchFn p1 = GitRepo.checksum wt keep matchFn p2) ∧
    (∀ (X : List String) (wt1 wt2 : String → Option (Nat × GitRepo.FileBody))
       (Y : List String) (p q : String) (m : Nat) (b : GitRepo.FileBody)
       (s1 s2 : List Char),
       p ≠ q →
       (∀ x ∈ X, wt1 x = wt2 x) → (∀ y ∈ Y, wt1 y = wt2 y) →
       wt1 p = some (m, b) → wt2 q = some (m, b) →
       GitRepo.hashFiles wt1 (X ++ p :: Y) = Except.ok s1 →
       GitRepo.hashFiles wt2 (X ++ q :: Y) = Except.ok s2 →
       s1 ≠ s2) := by
  constructor
  · intro wt keep matchFn p1 p2 h
    unfold GitRepo.checksum
    rw [sortStrings_perm_inv (h.flatMap_right matchFn)]
  · exact hashFiles_rename_changes

/-- Witness for C7: permuting two patterns leaves the checksum unchanged;
renaming the only matched file changes the hash input. -/
theorem C7_checksum_order_independent_rename_witness :
    (GitRepo.checksum
        (fun p => if p = "a" then some (420, GitRepo.FileBody.regular ("hi")) else
                  if p = "b" then some (420, GitRepo.FileBody.regular ("yo")) else none)
        (fun _ => true)
        (fun pat => if pat = "one" then ["a"] else ["b"])
        ["one", "two"]
      = GitRepo.checksum
        (fun p => if p = "a" then some (420, GitRepo.FileBody.regular ("hi")) else
                  if p = "b" then some (420, GitRepo.FileBody.regular ("yo")) else none)
        (fun _ => true)
        (fun pat => if pat = "one" then ["a"] else ["b"])
        ["two", "one"]) ∧
    (String.data ("a644hi") ≠ String.data ("c644hi")) :=
  ⟨(C7_checksum_order_independent_rename.1
      (fun p => if p = "a" then some (420, GitRepo.FileBody.regular ("hi")) else
                if p = "b" then some (420, GitRepo.FileBody.regular ("yo")) else none)
      (fun _ => true)
      (fun pat => if pat = "one" then ["a"] else ["b"])
      ["one", "two"] ["two", "one"] (by decide)),
   (C7_checksum_order_independent_rename.2 []
      (fun p => if p = "a" then some (420, GitRepo.FileBody.regular ("hi")) else none)
      (fun p => if p = "c" then some (420, GitRepo.FileBody.regular ("hi")) else none)
      [] "a" "c" 420 (GitRepo.FileBody.regular ("hi"))
      (String.data ("a644hi")) (String.data ("c644hi"))
      (by decide) (by intro x hx; cases hx) (by intro y hy; cases hy)
      rfl rfl rfl rfl)⟩

/-- C2 (code bug): `PrepareImagesPhase.run` does not process every image in
`imagesInOrder` — the stray `return nil` in the loop body makes a
successful run return after preparing only the first image.  Here a
two-image conveyor succeeds yet the processed-image list is `["alpha"]`:
image `beta` is never prepared (its signature `sigB` is absent from the
final index). -/
theorem C2_prepare_run_processes_only_first :
    PrepareImagesPhase.run
        { projectName := "demo", werfVersion := "v1.0", sshAuthSock := "", sigIndex := [] }
        [{ name := "alpha", prepareBaseOk := true,
           stages := [{ name := "install", signature := "sigA",
                        imageExists := false, prepareOk := true }] },
         { name := "beta", prepareBaseOk := true,
           stages := [{ name := "install", signature := "sigB",
                        imageExists := false, prepareOk := true }] }]
      = Except.ok
        ({ projectName := "demo", werfVersion := "v1.0", sshAuthSock := "",
           sigIndex := ["sigA"] }, ["alpha"]) ∧
    (["sigA"].contains ("sigB")) = false :=
  ⟨rfl, by decide⟩

/-- C6 counterexample: the claim says `werf-image` is `true` for the
terminal stage, but `PrepareImagesPhase` labels every stage image —
including the terminal one — with `werf-image=false`.  Here the single
(hence terminal) stage of the image receives `werf-image=false`, and
`("werf-image", "true")` is not among its labels. -/
theorem C6_terminal_werf_image_counterexample :
    PrepareImagesPhase.runImage
        { projectName := "demo", werfVersion := "v1.0", sshAuthSock := "", sigIndex := [] }
        { name := "app", prepareBaseOk := true,
          stages := [{ name := "setup", signature := "s1",
                       imageExists := false, prepareOk := true }] }
      = Except.ok
        ({ projectName := "demo", werfVersion := "v1.0", sshAuthSock := "",
           sigIndex := ["s1"] },
         [{ stageName := "setup",
            labels := [("werf", "demo"), ("werf-version", "v1.0"),
                       ("werf-cache-version", "33"),
                       ("werf-image", "false"), ("werf-dev-mode", "false")],
            volumes := [], envs := [] }]) ∧
    ((([("werf", "demo"), ("werf-version", "v1.0"), ("werf-cache-version", "33"),
        ("werf-image", "false"), ("werf-dev-mode", "false")] :
          List (String × String)).contains ("werf-image", "true")) = false) :=
  ⟨rfl, by decide⟩

/-- C6 (amended): every stage image configured by `PrepareImagesPhase`
receives exactly the service labels `werf={project}`,
`werf-version={tool-version}`, `werf-cache-version={BuildCacheVersion}`,
`werf-image=false` (also for the terminal stage — the phase never writes
`true`) and `werf-dev-mode=false`, and when `sshAuthSock` is non-empty it
additionally receives the volume `{sshAuthSock}:/tmp/werf-ssh-agent` and
the env `SSH_AUTH_SOCK=/tmp/werf-ssh-agent`. -/
theorem C6_service_labels (c : PrepareImagesPhase.Conveyor)
    (image : PrepareImagesPhase.Image) (cOut : PrepareImagesPhase.Conveyor)
    (cfgs : List PrepareImagesPhase.StageImageConfig)
    (h : PrepareImagesPhase.runImage c image = Except.ok (cOut, cfgs)) :
    ∀ cfg ∈ cfgs,
      cfg.labels = [("werf", c.projectName), ("werf-version", c.werfVersion),
                    ("werf-cache-version", BuildCacheVersion),
                    ("werf-image", "false"), ("werf-dev-mode", "false")] ∧
      cfg.volumes = (if c.sshAuthSock ≠ "" then [c.sshAuthSock ++ ":/tmp/werf-ssh-agent"] else []) ∧
      cfg.envs = (if c.sshAuthSock ≠ "" then [("SSH_AUTH_SOCK", "/tmp/werf-ssh-agent")] else []) := by
  intro cfg hm
  simp only [PrepareImagesPhase.runImage] at h
  split at h
  · exact prepare_runImageStages_labels image.stages c cOut cfgs h cfg hm
  · cases h

/-- Witness for C6 at a concrete conveyor with an ssh-agent socket. -/
theorem C6_service_labels_witness :
    PrepareImagesPhase.runImage
        { projectName := "demo", werfVersion := "v1.0", sshAuthSock := "/agent.sock", sigIndex := [] }
        { name := "app", prepareBaseOk := true,
          stages := [{ name := "setup", signature := "s1",
                       imageExists := false, prepareOk := true }] }
      = Except.ok
        ({ projectName := "demo", werfVersion := "v1.0", sshAuthSock := "/agent.sock",
           sigIndex := ["s1"] },
         [{ stageName := "setup",
            labels := [("werf", "demo"), ("werf-version", "v1.0"),
                       ("werf-cache-version", "33"),
                       ("werf-image", "false"), ("werf-dev-mode", "false")],
            volumes := ["/agent.sock:/tmp/werf-ssh-agent"],
            envs := [("SSH_AUTH_SOCK", "/tmp/werf-ssh-agent")] }]) ∧
    (∀ cfg ∈ [({ stageName := "setup",
                 labels := [("werf", "demo"), ("werf-version", "v1.0"),
                            ("werf-cache-version", "33"),
                            ("werf-image", "false"), ("werf-dev-mode", "false")],
                 volumes := ["/agent.sock:/tmp/werf-ssh-agent"],
                 envs := [("SSH_AUTH_SOCK", "/tmp/werf-ssh-agent")] } :
                   PrepareImagesPhase.StageImageConfig)],
      cfg.labels = [("werf", "demo"), ("werf-version", "v1.0"),
                    ("werf-cache-version", BuildCacheVersion),
                    ("werf-image", "false"), ("werf-dev-mode", "false")] ∧
      cfg.volumes = (if ("/agent.sock" : String) ≠ "" then ["/agent.sock" ++ ":/tmp/werf-ssh-agent"] else []) ∧
      cfg.envs = (if ("/agent.sock" : String) ≠ "" then [("SSH_AUTH_SOCK", "/tmp/werf-ssh-agent")] else [])) :=
  ⟨rfl,
    C6_service_labels
      { projectName := "demo", werfVersion := "v1.0", sshAuthSock := "/agent.sock", sigIndex := [] }
      { name := "app", prepareBaseOk := true,
        stages := [{ name := "setup", signature := "s1",
                     imageExists := false, prepareOk := true }] }
      { projectName := "demo", werfVersion := "v1.0", sshAuthSock := "/agent.sock",
        sigIndex := ["s1"] }
      [{ stageName := "setup",
         labels := [("werf", "demo"), ("werf-version", "v1.0"),
                    ("werf-cache-version", "33"),
                    ("werf-image", "false"), ("werf-dev-mode", "false")],
         volumes := ["/agent.sock:/tmp/werf-ssh-agent"],
         envs := [("SSH_AUTH_SOCK", "/tmp/werf-ssh-agent")] }] rfl⟩

end Werf
